import Mathlib

/-!
Verification of the Cloud Object Namespace Model of ipyfilechooser
(`utils_cloud.py`, `utils_s3.py`, `utils_azure.py`).

The Python classes are shallowly embedded as follows.

* `TNode` mirrors a `CloudObj` / `S3Obj` instance: the attributes
  `_name`, `_root`, `_children`, `_fetched`, `_sorted`.  Children are held
  structurally (the tree owns its subtrees), so the Python `_parent` back
  pointer of a child is, by construction, the node whose children list
  contains it.
* `PFrame` mirrors the data of one ancestor as seen through the `_parent`
  chain (`_name` and `_root`); a node's ancestor chain is a
  `List PFrame`, nearest parent first, so `[]` models `_parent is None`.
  Parent-dependent predicates (`is_master_root`, `is_dirup`, `is_bucket`)
  take that chain as an explicit argument.
* Mutating methods become functions returning the updated node.
* Python exceptions (AttributeError on a missing parent,
  UnboundLocalError, missing dict keys in backend responses) are modelled
  by `Option`: `none` is "the Python code raises here".
* The recursive flat-key parser `parse_objpaths` and `S3Obj.make_obj`
  recurse on ever-shorter string tails; they are defined with an explicit
  recursion bound (structural fuel) and wrapped with a bound that is
  always sufficient, so every definition is executable.
-/

namespace IpyFC

/-- One ancestor frame of the Python `_parent` chain: the `_name` and
`_root` attributes of that ancestor. -/
structure PFrame where
  name : Option String
  root : Bool
  deriving DecidableEq, Repr

/-- A `CloudObj` instance: `_name`, `_root`, `_children`, `_fetched`,
`_sorted`.  `children = none` models `_children is None`. -/
inductive TNode where
  | mk (name : Option String) (root : Bool) (children : Option (List TNode))
       (fetched : Bool) (sorted : Bool)
  deriving Repr

namespace TNode

def name : TNode → Option String
  | mk n _ _ _ _ => n

def root : TNode → Bool
  | mk _ r _ _ _ => r

def children : TNode → Option (List TNode)
  | mk _ _ c _ _ => c

def fetched : TNode → Bool
  | mk _ _ _ f _ => f

def sorted : TNode → Bool
  | mk _ _ _ _ s => s

@[simp] theorem name_mk (n r c f s) : (mk n r c f s).name = n := rfl
@[simp] theorem root_mk (n r c f s) : (mk n r c f s).root = r := rfl
@[simp] theorem children_mk (n r c f s) : (mk n r c f s).children = c := rfl
@[simp] theorem fetched_mk (n r c f s) : (mk n r c f s).fetched = f := rfl
@[simp] theorem sorted_mk (n r c f s) : (mk n r c f s).sorted = s := rfl

end TNode

open TNode (mk)

/-- `CloudObj.make_root`: `cls(None, parent, root=True)` — a fresh root /
dirup marker node (children `None`, not fetched, not sorted). -/
def make_root : TNode := mk none true none false false

/-- `CloudObj._make_elm`: `cls(name, parent)` — a leaf node. -/
def make_elm (name : String) : TNode := mk (some name) false none false false

/-- `CloudObj._make_dir`: `cls(name, parent).init_children()`;
`init_children` sets `_children = [self.make_root(self)]`. -/
def make_dir (name : String) : TNode := mk (some name) false (some [make_root]) false false

/-- `CloudObj.is_master_root`: `is_root() and self._parent is None`. -/
def is_master_root (anc : List PFrame) (t : TNode) : Bool :=
  t.root && anc.isEmpty

/-- `CloudObj.is_dirup`: `is_root() and not is_master_root()`. -/
def is_dirup (anc : List PFrame) (t : TNode) : Bool :=
  t.root && !(is_master_root anc t)

/-- `CloudObj.is_bucket`: `self._parent is not None and self._parent.is_master_root()`. -/
def is_bucket (anc : List PFrame) : Bool :=
  match anc with
  | [] => false
  | p :: rest => p.root && rest.isEmpty

/-- `CloudObj.has_children`: `self._children is not None`. -/
def has_children (t : TNode) : Bool := t.children.isSome

/-- `CloudObj.is_leaf`: `self._children is None`. -/
def is_leaf (t : TNode) : Bool := t.children.isNone

/-- `CloudObj.is_dir`: `has_children() or is_bucket() or is_dirup()`. -/
def is_dir (anc : List PFrame) (t : TNode) : Bool :=
  has_children t || is_bucket anc || is_dirup anc t

/-- `utils.match_item(item, filter_pattern)`.  The `fnmatch` patterns are
external library behaviour; a configured pattern list is modelled as an
opaque predicate, and `none` models the falsy no-filter case, for which
`match_item` returns `True`. -/
def match_item (item : String) (filter_pat : Option (String → Bool)) : Bool :=
  match filter_pat with
  | none => true
  | some p => p item

/-- `obj_path.split(SEP_STR, 1)`: `some (head, tail)` when the separator
occurs (split at its first occurrence), `none` when it does not (the
Python call raises `ValueError`, caught at every use site). -/
def splitFirstAux : List Char → List Char → Option (List Char × List Char)
  | [], _ => none
  | c :: rest, acc => if c = '/' then some (acc.reverse, rest) else splitFirstAux rest (c :: acc)

def splitFirst (s : String) : Option (String × String) :=
  (splitFirstAux s.data []).map fun p => (String.mk p.1, String.mk p.2)

/-- Lookup in the ordered `children_map` (a Python `dict`, keys in first
occurrence order). -/
def lookupGroup (h : String) : List (String × List String) → Option (List String)
  | [] => none
  | (k, v) :: gs => if k = h then some v else lookupGroup h gs

def removeGroup (h : String) : List (String × List String) → List (String × List String)
  | [] => []
  | (k, v) :: gs => if k = h then gs else (k, v) :: removeGroup h gs

/-- Record one `(head, tail)` split in the `children_map`, given the map
built from the *later* inputs: the key moves to the front (its first
occurrence is the current input) and the tail precedes later tails. -/
def insertGroup (h tl : String) (gs : List (String × List String)) :
    List (String × List String) :=
  match lookupGroup h gs with
  | some v => (h, tl :: v) :: removeGroup h gs
  | none => (h, [tl]) :: gs

/-- The single `for child in paths` loop of `CloudObj.parse_objpaths`:
returns the leaves appended to `self._children` (in input order, name
filter already applied) and the `children_map` (keys in first-occurrence
order, tails in input order).  Empty strings are skipped (`if child:`). -/
def scanPaths (filter_pat : Option (String → Bool)) :
    List String → List String × List (String × List String)
  | [] => ([], [])
  | p :: rest =>
    if p = "" then scanPaths filter_pat rest
    else
      match splitFirst p with
      | none =>
        let r := scanPaths filter_pat rest
        (if match_item p filter_pat then p :: r.1 else r.1, r.2)
      | some (h, tl) =>
        let r := scanPaths filter_pat rest
        (r.1, insertGroup h tl r.2)

/-- Recursion bound for `parse_objpaths` (the Python recursion descends
into strictly shorter string tails, so any bound at least
`sizePaths paths` suffices). -/
def sizePaths (paths : List String) : Nat :=
  (paths.map fun p => p.length + 1).sum

/-- The `for child, descendents in children_map.items()` loop: one result
node per map entry, failure propagated. -/
def mapMO (g : α → Option β) : List α → Option (List β)
  | [] => some []
  | x :: xs =>
    match g x, mapMO g xs with
    | some y, some ys => some (y :: ys)
    | _, _ => none

/-- `CloudObj.parse_objpaths` with an explicit recursion bound.  `none`
models the `AttributeError` raised when `self._children is None` (the
Python code calls `self._children.append`), or bound exhaustion. -/
def parseB (filter_pat : Option (String → Bool)) :
    Nat → TNode → List String → Option TNode
  | 0, _, _ => none
  | b + 1, t, paths =>
    match t.children with
    | none => none
    | some cs =>
      let lg := scanPaths filter_pat paths
      match mapMO (fun hg =>
          if hg.2.isEmpty then some (make_dir hg.1)
          else parseB filter_pat b (make_dir hg.1) hg.2) lg.2 with
      | none => none
      | some dirs =>
        some (mk t.name t.root (some (cs ++ lg.1.map make_elm ++ dirs)) true false)

/-- `CloudObj.parse_objpaths(paths, filter_pattern)`: groups the input
keys by their first path segment, appends matching separator-free keys as
leaf children, creates one directory child per distinct head and recurses
on the collected tails, then marks the node fetched and unsorted.
`none` models the `AttributeError` raised when `self._children is None`. -/
def parse_objpaths (t : TNode) (paths : List String)
    (filter_pat : Option (String → Bool)) : Option TNode :=
  parseB filter_pat (sizePaths paths + 1) t paths

/-- `CloudObj._parse_children(children, filter_pattern, buckets)`.
`children = none` (the backend failure sentinel) resets `_fetched` and
`_sorted` to `False` and touches nothing else; with `buckets=True` the
children list is replaced by one directory node per name and the node is
marked fetched; otherwise `parse_objpaths` runs only when the list is
non-empty (`elif children:`), so an empty object list falls through every
branch.  The Python method returns `self._children`, i.e. the `children`
field of the returned node. -/
def parse_children (t : TNode) (children : Option (List String))
    (filter_pat : Option (String → Bool)) (buckets : Bool) : Option TNode :=
  match children with
  | none => some (mk t.name t.root t.children false false)
  | some cs =>
    if buckets then
      some (mk t.name t.root (some (cs.map make_dir)) true false)
    else if !cs.isEmpty then
      parse_objpaths t cs filter_pat
    else
      some t

/-- Python `str.__lt__`: lexicographic comparison by code point. -/
def charsLt : List Char → List Char → Bool
  | [], [] => false
  | [], _ :: _ => true
  | _ :: _, [] => false
  | a :: as, b :: bs => if a = b then charsLt as bs else decide (a < b)

/-- `self.name < other.name` inside `CloudObj.__lt__`.  Comparing a `None`
name raises `TypeError` in Python; the branches of `__lt__` that compare
names are only reached by named (non-root) nodes, so the `none` case is
unreachable there and is given an arbitrary value. -/
def nameLt (a b : Option String) : Bool :=
  match a, b with
  | some x, some y => charsLt x.data y.data
  | _, _ => false

/-- `CloudObj.__lt__(self, other)`, with each operand given as the node
plus its ancestor chain. -/
def ltb (anc1 : List PFrame) (t1 : TNode) (anc2 : List PFrame) (t2 : TNode) : Bool :=
  if is_master_root anc1 t1 || is_master_root anc2 t2 then
    !(is_master_root anc2 t2)
  else if is_dirup anc1 t1 || is_dirup anc2 t2 then
    !(is_dirup anc2 t2)
  else if is_bucket anc1 || is_bucket anc2 then
    if !(is_bucket anc2) then true
    else if is_bucket anc1 then nameLt t1.name t2.name
    else false
  else if has_children t1 || has_children t2 then
    if !(has_children t2) then true
    else if has_children t1 then nameLt t1.name t2.name
    else false
  else nameLt t1.name t2.name

/-- Insert into an already-sorted list: the new element goes after every
element that compares strictly below it, and before the first element
that does not (so equal elements keep their original relative order). -/
def pySortAux (lt : TNode → TNode → Bool) (x : TNode) : List TNode → List TNode
  | [] => [x]
  | y :: ys => if lt y x then y :: pySortAux lt x ys else x :: y :: ys

/-- CPython `list.sort()` driven by `__lt__`: specified as the stable
ascending reordering with respect to the strict comparator. -/
def pySort (lt : TNode → TNode → Bool) : List TNode → List TNode
  | [] => []
  | x :: xs => pySortAux lt x (pySort lt xs)

/-- `self._children.sort()` inside `_prep_children`: every child is
compared with the node itself as parent frame. -/
def sortChildren (anc : List PFrame) (t : TNode) (cs : List TNode) : List TNode :=
  let ancC := PFrame.mk t.name t.root :: anc
  pySort (fun a b => ltb ancC a ancC b) cs

/-- `CloudObj.find(cloud_obj)`: `self._children.index(cloud_obj)` with
`__eq__` comparing names only; returns the first child whose name equals
the candidate's, or `none`.  (`S3Obj.find` is the same code.) -/
def find (t : TNode) (c : TNode) : Option TNode :=
  match t.children with
  | none => none
  | some cs => cs.find? fun x => x.name == c.name

/-- `CloudObj._add(cloud_obj)` / `S3Obj.add(s3obj)`: returns the existing
child when one with the same name is present (children untouched),
otherwise appends the candidate (creating the list if `None`) and clears
`_sorted`.  Result: (updated parent, child actually in the tree).  The
Python side effect `cloud_obj.parent = self` is the structural position
of the child in the returned parent. -/
def add (t : TNode) (c : TNode) : TNode × TNode :=
  match find t c with
  | some orig => (t, orig)
  | none => (mk t.name t.root (some (t.children.getD [] ++ [c])) t.fetched false, c)

/-- `os.path.join(a, b)` for POSIX paths, two arguments. -/
def pjoin (a b : String) : String :=
  if b.data.head? == some '/' then b
  else if a.data.isEmpty || a.data.getLast? == some '/' then a ++ b
  else a ++ "/" ++ b

/-- `CloudObj.get_bucket()`: `self.name if self.is_bucket() else
self._parent.get_bucket()`.  `none` models the `AttributeError` raised
when the chain ends without passing a bucket (or a bucket with `None`
name, which does not occur in trees built by this code). -/
def get_bucket (f : PFrame) : List PFrame → Option String
  | [] => none
  | p :: rest => if p.root && rest.isEmpty then f.name else get_bucket p rest

/-- `CloudObj.get_cloud_path()`: empty once the walk reaches the bucket or
master root, else joins the parent's path with this node's name. -/
def get_cloud_path (f : PFrame) : List PFrame → Option String
  | [] => if f.root then some "" else none
  | p :: rest =>
    if p.root && rest.isEmpty then some ""
    else
      match get_cloud_path p rest, f.name with
      | some pp, some n => some (pjoin pp n)
      | _, _ => none

/-- `CloudObj.get_cloud_path_with_bucket()`: the master root yields
`MASTER_ROOT_STR = "//"`, every other step joins the parent's result with
this node's name. -/
def get_cloud_path_with_bucket (f : PFrame) : List PFrame → Option String
  | [] => if f.root then some "//" else none
  | p :: rest =>
    match get_cloud_path_with_bucket p rest, f.name with
    | some pp, some n => some (pjoin pp n)
    | _, _ => none

/-- `CloudObj.get_cloud_call_data()`: `(get_bucket(), get_cloud_path())`.
(`S3Obj.get_s3_call_data` is the same code.) -/
def get_cloud_call_data (f : PFrame) (anc : List PFrame) : Option (String × String) :=
  match get_bucket f anc, get_cloud_path f anc with
  | some b, some p => some (b, p)
  | _, _ => none

/-- `CloudObj.get_ancestry(parents)`: recurses into the parent first, then
appends itself, so the result is root-first.  A node is identified by its
frame together with its ancestor chain. -/
def get_ancestry (f : PFrame) (anc : List PFrame)
    (parents : List (PFrame × List PFrame)) : List (PFrame × List PFrame) :=
  match anc with
  | [] => parents ++ [(f, [])]
  | p :: rest => get_ancestry p rest parents ++ [(f, p :: rest)]

/-- The behaviour of a backend client handle (`CloudClient` descendant)
as seen by `fetch_children`: what `get_buckets` returns, and what
`get_objects` returns for a `(bucket, path)` pair. -/
structure CloudHandle where
  bucketsRes : Option (List String)
  objectsRes : String → String → Option (List String)

/-- `CloudObj.fetch_children(cloud_handle, filter_pattern)`.  Result:
`(node after the call, Python return value, number of backend calls)`.
The Python return value is always `self._children`.  `none` models an
uncaught exception (broken parent chain in `get_cloud_call_data`, or
`parse_objpaths` on a childless node). -/
def fetch_children (anc : List PFrame) (t : TNode) (h : Option CloudHandle)
    (filter_pat : Option (String → Bool)) :
    Option (TNode × Option (List TNode) × Nat) :=
  match h with
  | some hdl =>
    if !t.fetched then
      if is_master_root anc t then
        let t0 := mk t.name t.root (some []) t.fetched t.sorted
        match parse_children t0 hdl.bucketsRes filter_pat true with
        | some t1 => some (t1, t1.children, 1)
        | none => none
      else if is_dir anc t then
        match get_cloud_call_data (PFrame.mk t.name t.root) anc with
        | some bp =>
          match parse_children t (hdl.objectsRes bp.1 bp.2) filter_pat false with
          | some t1 => some (t1, t1.children, 1)
          | none => none
        | none => none
      else some (t, t.children, 0)
    else some (t, t.children, 0)
  | none => some (t, t.children, 0)

/-- `CloudObj._prep_children()`: sorts the children when fetched, present
and not yet sorted; returns `has_children()`. -/
def prep_children (anc : List PFrame) (t : TNode) : TNode × Bool :=
  match t.children with
  | some cs =>
    if t.fetched && !t.sorted then
      (mk t.name t.root (some (sortChildren anc t cs)) t.fetched true, true)
    else (t, true)
  | none => (t, false)

/-- `CloudObj.short_name()`: `MASTER_ROOT_STR` for the master root,
`ROOT_STR = ".."` for other root markers, else the raw name. -/
def short_name (anc : List PFrame) (t : TNode) : Option String :=
  if is_master_root anc t then some "//"
  else if t.root then some ".."
  else t.name

/-- Python `f"{x}"` of an optional string: `str(None) = "None"`. -/
def pyStr (s : Option String) : String :=
  match s with
  | some x => x
  | none => "None"

def DEF_BUCKET_ICON : String := String.mk [Char.ofNat 0x1F5C4]
def DEF_DIR_ICON : String := String.mk [Char.ofNat 0x1F4C1]
def DEF_FILE_ICOM : String := ""

/-- Icon defaulting in `get_dir_list`: `icon if icon else DEFAULT` (both
`None` and the empty string are falsy). -/
def resolveIcon (icon : Option String) (dflt : String) : String :=
  match icon with
  | some s => if s = "" then dflt else s
  | none => dflt

/-- `CloudObj.ui_name_1(bucket_icon, dir_icon, file_icon)`. -/
def ui_name_1 (anc : List PFrame) (t : TNode) (bI dI fI : String) : String :=
  if is_bucket anc then
    if bI != "" then bI ++ " " ++ pyStr (short_name anc t) else pyStr (short_name anc t)
  else if is_dir anc t then
    if dI != "" then dI ++ " " ++ pyStr (short_name anc t) else pyStr (short_name anc t)
  else
    if fI != "" then pyStr (short_name anc t) ++ " " ++ fI else pyStr (short_name anc t)

/-- `CloudObj.get_dir_tuple(...)`: `(ui_name_1(...), self)`. -/
def get_dir_tuple (anc : List PFrame) (t : TNode) (bI dI fI : String) : String × TNode :=
  (ui_name_1 anc t bI dI fI, t)

/-- `CloudObj.get_dir_list(cloud_handle, icons..., filter_pattern)`:
resolves icons, lazily fetches, then renders the (possibly sorted)
children.  Result: `(node after the call, returned display list)`. -/
def get_dir_list (anc : List PFrame) (t : TNode) (h : Option CloudHandle)
    (bIcon dIcon fIcon : Option String) (filter_pat : Option (String → Bool)) :
    Option (TNode × List (String × TNode)) :=
  let bI := resolveIcon bIcon DEF_BUCKET_ICON
  let dI := resolveIcon dIcon DEF_DIR_ICON
  let fI := resolveIcon fIcon DEF_FILE_ICOM
  let step : Option TNode :=
    if !t.fetched then
      match fetch_children anc t h filter_pat with
      | some r => some r.1
      | none => none
    else some t
  match step with
  | none => none
  | some t1 =>
    let pr := prep_children anc t1
    let ancC := PFrame.mk pr.1.name pr.1.root :: anc
    if pr.2 then
      some (pr.1, (pr.1.children.getD []).map fun c => get_dir_tuple ancC c bI dI fI)
    else
      some (pr.1, [])

/-! ### The older `S3Obj` revision (`utils_s3.py`) -/

/-- `S3Obj.make_obj(obj_path, parent)` with an explicit recursion bound:
splits off the first segment, builds a directory (when a tail exists or
the parent is the master root) or a leaf, attaches it with
`parent.add(...)` (de-duplicating by name), and recurses into the
attached child on a truthy tail.  Returns the updated parent.  The
attached child is mutated in place in Python; here the child slot of the
parent's children list is updated. -/
def s3_make_objB : Nat → TNode → Bool → String → Option TNode
  | 0, _, _, _ => none
  | b + 1, parent, parentIsMR, p =>
    let split := splitFirst p
    let cand :=
      if split.isSome || parentIsMR then
        make_dir (match split with | some q => q.1 | none => p)
      else make_elm p
    let cs := parent.children.getD []
    match cs.findIdx? fun x => x.name == cand.name with
    | some i =>
      let orig := cs.getD i make_root
      let orig2 :=
        match split with
        | some q => if q.2 ≠ "" then s3_make_objB b orig false q.2 else some orig
        | none => some orig
      orig2.map fun o2 =>
        mk parent.name parent.root (some (cs.set i o2)) parent.fetched parent.sorted
    | none =>
      let cand2 :=
        match split with
        | some q => if q.2 ≠ "" then s3_make_objB b cand false q.2 else some cand
        | none => some cand
      cand2.map fun c2 =>
        mk parent.name parent.root (some (cs ++ [c2])) parent.fetched false

def s3_make_obj (parent : TNode) (parentIsMR : Bool) (p : String) : Option TNode :=
  s3_make_objB (p.length + 1) parent parentIsMR p

/-- `S3Obj.parse_children(children)`: on the `None` sentinel resets
`_fetched`/`_sorted`; otherwise runs `make_obj` for every path and marks
the node fetched.  Returns `(node, self._children)`. -/
def s3_parse_children (anc : List PFrame) (t : TNode)
    (children : Option (List String)) : Option (TNode × Option (List TNode)) :=
  match children with
  | none =>
    let t2 := mk t.name t.root t.children false false
    some (t2, t2.children)
  | some cs =>
    let isMR := is_master_root anc t
    match cs.foldlM (fun acc p => s3_make_obj acc isMR p) t with
    | none => none
    | some t1 =>
      let t2 := mk t1.name t1.root t1.children true false
      some (t2, t2.children)

/-- `S3Obj.fetch_children(s3_handle)`.  The final statement is
unconditionally `return self.parse_children(children)`, but the local
`children` is only assigned inside `if s3_handle and not self._fetched:`
on the master-root and directory branches; every other path raises
`UnboundLocalError`, modelled by `none`. -/
def s3_fetch_children (anc : List PFrame) (t : TNode) (h : Option CloudHandle) :
    Option (TNode × Option (List TNode)) :=
  let state : Option (TNode × Option (List String)) :=
    match h with
    | some hdl =>
      if !t.fetched then
        if is_master_root anc t then
          some (mk t.name t.root (some []) t.fetched t.sorted, hdl.bucketsRes)
        else if is_dir anc t then
          match get_cloud_call_data (PFrame.mk t.name t.root) anc with
          | some bp => some (t, hdl.objectsRes bp.1 bp.2)
          | none => none
        else none
      else none
    | none => none
  match state with
  | none => none
  | some (t1, cs) => s3_parse_children anc t1 cs

/-! ### Backend adapters (`S3` in `utils_s3.py`, `AzureClient` in
`utils_azure.py`)

The SDK call made inside each adapter method is opaque: its outcome is a
parameter.  `CallRes.raised msg` is an exception of the classes the
adapter catches (`ClientError`/`EndpointConnectionError` for S3,
`AzureError`/`HttpResponseError` for Azure); `CallRes.ok` carries the
response.  Response-shape parsing (`S3Res`/`AzureRes`) abstracts a
well-formed response to its name list and a malformed one (missing dict
key) to `none`.  Each adapter function returns
`(self._error after the call, return value)`; the method body first sets
`self._error = None`. -/

inductive CallRes (α : Type) where
  | raised (msg : String)
  | ok (v : α)

/-- SDK outcome for the S3 adapter methods, which catch only
`(ClientError, EndpointConnectionError)`: `raisedCaught` is an exception
of one of those two classes; `raisedUncaught` is an exception of any
other class — e.g. `HTTPClientError` (read timeouts; caught in
`S3.exists` but not here) or `NoCredentialsError` — which the narrow
`except` clause lets propagate past the adapter. -/
inductive S3CallRes (α : Type) where
  | raisedCaught (msg : String)
  | raisedUncaught (msg : String)
  | ok (v : α)

/-- `S3Res` for `list_objects_v2`: `KeyCount` (possibly missing) and
`Contents` (possibly missing or malformed). -/
structure S3ObjectsResp where
  keyCount : Option Nat
  contents : Option (List String)

/-- `S3Res.get_objects_names`: a missing `KeyCount` or a zero count gives
`[]`; a positive count reads `Contents`, whose missing key gives `None`. -/
def s3res_get_objects_names (r : S3ObjectsResp) : Option (List String) :=
  match r.keyCount with
  | none => some []
  | some 0 => some []
  | some (_ + 1) => r.contents

/-- `S3.get_buckets(parent)` (the argument is a node; only
`parent.name[:20]` is used, for the error text).  The result is
`some (self._error, return value)` when the method returns, and `none`
when the SDK call raises outside `(ClientError, EndpointConnectionError)`
and the exception propagates past the adapter. -/
def s3_get_buckets (parentName : String) (call : S3CallRes (Option (List String))) :
    Option (Option String × Option (List String)) :=
  match call with
  | .raisedUncaught _ => none
  | .raisedCaught m => some (some ("Failed AWS list_backets: " ++ m), none)
  | .ok r =>
    match r with
    | none =>
      some (some ("Failed to parse response to list_buckets for: " ++ parentName.take 20), none)
    | some names => some (none, some names)

/-- `S3.get_objects(parent)`; same narrow `except` clause as
`S3.get_buckets`, so the same propagation behaviour. -/
def s3_get_objects (parentName : String) (call : S3CallRes S3ObjectsResp) :
    Option (Option String × Option (List String)) :=
  match call with
  | .raisedUncaught _ => none
  | .raisedCaught m => some (some ("Failed AWS list_backets: " ++ m), none)
  | .ok r =>
    match s3res_get_objects_names r with
    | none =>
      some (some ("Failed to parse response to list_objects_v2 for: " ++ parentName.take 20), none)
    | some names => some (none, some names)

/-- `AzureClient.get_buckets(parent)` (the argument is the name string). -/
def az_get_buckets (parentName : String) (call : CallRes (Option (List String))) :
    Option String × Option (List String) :=
  match call with
  | .raised m => (some ("Failed Azure list_containers: " ++ m), none)
  | .ok r =>
    match r with
    | none =>
      (some ("Failed to parse response to list_containers for: " ++ parentName.take 20), none)
    | some names => (none, some names)

/-- `AzureClient.get_objects(bucket, prefix="")`. -/
def az_get_objects (container pfx : String) (call : CallRes (Option (List String))) :
    Option String × Option (List String) :=
  match call with
  | .raised m => (some ("Failed Azure list_blobs: " ++ m), none)
  | .ok r =>
    match r with
    | none =>
      (some ("Failed to parse response to list_blobs for: /" ++ container.take 20 ++ ".../"
        ++ pfx.take 20 ++ "..."), none)
    | some names => (none, some names)

/-! ### Derived notions used by the verification -/

/-- The master-root frame (`make_root()` with no parent). -/
def rootFrame : PFrame := PFrame.mk none true

/-- The node reached from the master root by walking down through the
given name sequence: its own frame plus its ancestor chain (nearest
parent first). -/
def chain (ns : List String) : PFrame × List PFrame :=
  ns.foldl (fun fa n => (PFrame.mk (some n) false, fa.1 :: fa.2)) (rootFrame, [])

/-- Characters of `n1/n2/.../nk`. -/
def interData : List String → List Char
  | [] => []
  | [n] => n.data
  | n :: m :: rest => n.data ++ '/' :: interData (m :: rest)

/-- Raw split of a character list on the separator (empty segments
included). -/
def sepSplitAux : List Char → List Char → List (List Char)
  | [], acc => [acc.reverse]
  | c :: rest, acc =>
    if c = '/' then acc.reverse :: sepSplitAux rest []
    else sepSplitAux rest (c :: acc)

/-- The separator-split segments of a path string, empty segments
dropped. -/
def segsOf (s : String) : List (List Char) :=
  (sepSplitAux s.data []).filter fun seg => !seg.isEmpty

/-- The recursion of `get_cloud_path_with_bucket` unrolled along a chain:
a fold of `os.path.join` starting from `MASTER_ROOT_STR`. -/
def pathJoinAll (ns : List String) : String :=
  ns.foldl pjoin "//"

/-- The list `get_ancestry` produces for a node given by frame and
chain. -/
def ancToList : PFrame → List PFrame → List (PFrame × List PFrame)
  | f, [] => [(f, [])]
  | f, p :: rest => ancToList p rest ++ [(f, p :: rest)]

/-- Number of root-marker (dirup, when under a parent) children in a
children list. -/
def countRoot (cs : List TNode) : Nat :=
  cs.countP fun x => x.root

/-! ### Helper lemmas -/

theorem string_append_ne_empty (a b : String) (h : 0 < a.length) : a ++ b ≠ "" := by
  intro he
  have hl : a.length + b.length = (0 : Nat) := by
    rw [← String.length_append, he]
    rfl
  omega

theorem string_append_pos (a b : String) (h : 0 < a.length) : 0 < (a ++ b).length := by
  rw [String.length_append]
  omega

theorem mapMO_mem (g : α → Option β) :
    ∀ (l : List α) (l' : List β), mapMO g l = some l' →
      ∀ y ∈ l', ∃ x ∈ l, g x = some y := by
  intro l
  induction l with
  | nil => intro l' h y hy; cases h; cases hy
  | cons x xs ih =>
    intro l' h y hy
    simp only [mapMO] at h
    cases hg : g x with
    | none => rw [hg] at h; cases h
    | some y0 =>
      rw [hg] at h
      cases hm : mapMO g xs with
      | none => rw [hm] at h; cases h
      | some ys =>
        rw [hm] at h
        cases h
        cases hy with
        | head => exact ⟨x, List.mem_cons_self x xs, hg⟩
        | tail _ hy2 =>
          obtain ⟨x2, hx2, hgx2⟩ := ih ys hm y hy2
          exact ⟨x2, List.mem_cons_of_mem x hx2, hgx2⟩

/-- `parse_objpaths` never changes the name or root flag of the node it
runs on. -/
theorem parseB_root (f : Option (String → Bool)) (b : Nat) (t : TNode)
    (ps : List String) (t' : TNode) (h : parseB f b t ps = some t') :
    t'.root = t.root ∧ t'.name = t.name := by
  match b with
  | 0 => cases h
  | Nat.succ b =>
    simp only [parseB] at h
    cases hc : t.children with
    | none => rw [hc] at h; cases h
    | some cs =>
      rw [hc] at h
      cases hm : mapMO (fun hg =>
          if hg.2.isEmpty then some (make_dir hg.1)
          else parseB f b (make_dir hg.1) hg.2) (scanPaths f ps).2 with
      | none => rw [hm] at h; cases h
      | some dirs =>
        rw [hm] at h
        cases h
        exact ⟨rfl, rfl⟩

/-- `parse_objpaths` only ever appends to the invoking node's children,
and everything it appends (filtered leaves and the per-head directory
nodes) has `root = false` — never a dirup marker. -/
theorem parseB_appends_nonroot (f : Option (String → Bool)) (b : Nat) (t : TNode)
    (ps : List String) (t' : TNode) (h : parseB f b t ps = some t') :
    ∃ cs cs', t.children = some cs ∧ t'.children = some (cs ++ cs')
      ∧ ∀ c ∈ cs', c.root = false := by
  match b with
  | 0 => cases h
  | Nat.succ b =>
    simp only [parseB] at h
    cases hc : t.children with
    | none => rw [hc] at h; cases h
    | some cs =>
      rw [hc] at h
      cases hm : mapMO (fun hg =>
          if hg.2.isEmpty then some (make_dir hg.1)
          else parseB f b (make_dir hg.1) hg.2) (scanPaths f ps).2 with
      | none => rw [hm] at h; cases h
      | some dirs =>
        rw [hm] at h
        cases h
        refine ⟨cs, (scanPaths f ps).1.map make_elm ++ dirs, rfl, by
          simp [List.append_assoc], fun c hcmem => ?_⟩
        rcases List.mem_append.mp hcmem with hle | hdi
        · obtain ⟨nm, _, hnm⟩ := List.mem_map.mp hle
          rw [← hnm]
          rfl
        · obtain ⟨hg, _, hghg⟩ := mapMO_mem _ _ _ hm c hdi
          by_cases hemp : hg.2.isEmpty
          · rw [if_pos hemp] at hghg
            cases hghg
            rfl
          · rw [if_neg hemp] at hghg
            exact (parseB_root _ _ _ _ _ hghg).1

theorem pySortAux_perm (lt : TNode → TNode → Bool) (x : TNode) :
    ∀ l : List TNode, (pySortAux lt x l).Perm (x :: l) := by
  intro l
  induction l with
  | nil => exact List.Perm.refl _
  | cons y ys ih =>
    simp only [pySortAux]
    by_cases hlt : lt y x = true
    · rw [if_pos hlt]
      exact ((ih.cons y).trans (List.Perm.swap x y ys))
    · rw [if_neg hlt]

theorem pySort_perm (lt : TNode → TNode → Bool) :
    ∀ l : List TNode, (pySort lt l).Perm l := by
  intro l
  induction l with
  | nil => exact List.Perm.refl _
  | cons x xs ih =>
    simp only [pySort]
    exact (pySortAux_perm lt x (pySort lt xs)).trans (ih.cons x)

theorem chain_snoc (ns : List String) (n : String) :
    chain (ns ++ [n]) = (PFrame.mk (some n) false, (chain ns).1 :: (chain ns).2) := by
  simp [chain, List.foldl_append]

theorem pathJoinAll_snoc (ns : List String) (n : String) :
    pathJoinAll (ns ++ [n]) = pjoin (pathJoinAll ns) n := by
  simp [pathJoinAll, List.foldl_append]

/-- Along a chain built from the master root, `get_cloud_path_with_bucket`
is the fold of `os.path.join` over the names, seeded with
`MASTER_ROOT_STR`. -/
theorem gcpwb_chain (ns : List String) :
    get_cloud_path_with_bucket (chain ns).1 (chain ns).2 = some (pathJoinAll ns) := by
  induction ns using List.reverseRecOn with
  | nil => rfl
  | append_singleton ns n ih =>
    rw [chain_snoc, pathJoinAll_snoc]
    simp only [get_cloud_path_with_bucket]
    rw [ih]

theorem interData_snoc (ns : List String) (n : String) (h : ns ≠ []) :
    interData (ns ++ [n]) = interData ns ++ '/' :: n.data := by
  induction ns with
  | nil => exact absurd rfl h
  | cons m ms ih =>
    cases ms with
    | nil => rfl
    | cons m2 ms2 =>
      simp only [List.cons_append, List.append_eq, interData]
      have ih2 := ih (by simp)
      rw [List.cons_append] at ih2
      rw [ih2]
      simp [List.append_assoc]

/-- The joined path of a valid non-empty name chain reads
`"//" ++ n1 ++ "/" ++ ... ++ "/" ++ nk`, and (for a non-empty chain) its
last character is not the separator. -/
theorem joinAll_props (ns : List String)
    (hval : ∀ n ∈ ns, n.data ≠ [] ∧ '/' ∉ n.data) :
    (pathJoinAll ns).data = '/' :: '/' :: interData ns
  ∧ (ns = [] ∨ ∃ c, (pathJoinAll ns).data.getLast? = some c ∧ c ≠ '/') := by
  induction ns using List.reverseRecOn with
  | nil => exact ⟨rfl, Or.inl rfl⟩
  | append_singleton ns n ih =>
    have hvns : ∀ m ∈ ns, m.data ≠ [] ∧ '/' ∉ m.data := fun m hm =>
      hval m (List.mem_append.mpr (Or.inl hm))
    have hvn := hval n (List.mem_append.mpr (Or.inr (List.mem_singleton.mpr rfl)))
    obtain ⟨hdata, hlast⟩ := ih hvns
    obtain ⟨c0, cs0, hn⟩ : ∃ c0 cs0, n.data = c0 :: cs0 := by
      cases hcn : n.data with
      | nil => exact absurd hcn hvn.1
      | cons a l => exact ⟨a, l, rfl⟩
    have hc0 : c0 ≠ '/' := fun he => hvn.2 (by rw [hn, he]; exact List.mem_cons_self _ _)
    have hhead : (n.data.head? == some '/') = false := by
      rw [hn]
      simp [hc0]
    have hexn : ∃ c, n.data.getLast? = some c ∧ c ≠ '/' := by
      cases hgl : n.data.getLast? with
      | none => rw [List.getLast?_eq_none_iff] at hgl; exact absurd hgl hvn.1
      | some c =>
        refine ⟨c, rfl, fun he => hvn.2 ?_⟩
        rw [← he]
        exact List.mem_of_mem_getLast? hgl
    obtain ⟨cn, hcn, hcnne⟩ := hexn
    have h1 : ¬ ((n.data.head? == some '/') = true) := by
      rw [hhead]
      exact Bool.false_ne_true
    rw [pathJoinAll_snoc]
    rcases hlast with hnil | ⟨c, hlc, hcne⟩
    · subst hnil
      have h2 : ((("//" : String).data.isEmpty
          || (("//" : String).data.getLast? == some '/')) = true) := by decide
      have hjoin : pjoin (pathJoinAll []) n = pathJoinAll [] ++ n := by
        show pjoin "//" n = "//" ++ n
        unfold pjoin
        rw [if_neg h1, if_pos h2]
      rw [hjoin]
      constructor
      · rw [String.data_append]
        rfl
      · refine Or.inr ⟨cn, ?_, hcnne⟩
        rw [String.data_append, List.getLast?_append, hcn]
        rfl
    · have hne2 : ns ≠ [] := by
        intro hns
        subst hns
        rw [show (pathJoinAll []).data = ['/', '/'] from rfl] at hlc
        simp at hlc
        exact hcne hlc.symm
      have ha : (pathJoinAll ns).data.isEmpty = false := by
        rw [hdata]
        rfl
      have hb : ((pathJoinAll ns).data.getLast? == some '/') = false := by
        rw [hlc]
        simp [hcne]
      have h2 : ((pathJoinAll ns).data.isEmpty
          || ((pathJoinAll ns).data.getLast? == some '/')) = false := by
        rw [ha, hb]
        rfl
      have hjoin : pjoin (pathJoinAll ns) n = pathJoinAll ns ++ "/" ++ n := by
        unfold pjoin
        rw [if_neg h1, if_neg (by rw [h2]; exact Bool.false_ne_true)]
      rw [hjoin]
      have hdata2 : (pathJoinAll ns ++ "/" ++ n).data
          = '/' :: '/' :: interData (ns ++ [n]) := by
        rw [String.data_append, String.data_append, hdata, interData_snoc ns n hne2]
        simp
      refine ⟨hdata2, Or.inr ⟨cn, ?_, hcnne⟩⟩
      rw [String.data_append, List.getLast?_append, hcn]
      rfl

theorem sepSplitAux_no_sep (l : List Char) :
    ∀ acc, '/' ∉ l → sepSplitAux l acc = [acc.reverse ++ l] := by
  induction l with
  | nil => intro acc _; simp [sepSplitAux]
  | cons c cs ih =>
    intro acc h
    have hc : ¬(c = '/') := fun he => h (he ▸ List.mem_cons_self c cs)
    simp only [sepSplitAux]
    rw [if_neg hc, ih (c :: acc) (fun hm => h (List.mem_cons_of_mem c hm))]
    simp

theorem sepSplitAux_sep (l1 : List Char) :
    ∀ (l2 acc : List Char), '/' ∉ l1 →
      sepSplitAux (l1 ++ '/' :: l2) acc = (acc.reverse ++ l1) :: sepSplitAux l2 [] := by
  induction l1 with
  | nil => intro l2 acc _; simp [sepSplitAux]
  | cons c cs ih =>
    intro l2 acc h
    have hc : ¬(c = '/') := fun he => h (he ▸ List.mem_cons_self c cs)
    simp only [List.cons_append, List.append_eq, sepSplitAux]
    rw [if_neg hc, ih l2 (c :: acc) (fun hm => h (List.mem_cons_of_mem c hm))]
    simp

/-- Splitting the intercalation of valid names on the separator and
dropping empty segments recovers exactly the names. -/
theorem segs_interData (ns : List String)
    (hval : ∀ n ∈ ns, n.data ≠ [] ∧ '/' ∉ n.data) :
    (sepSplitAux (interData ns) []).filter (fun seg => !seg.isEmpty)
      = ns.map String.data := by
  induction ns with
  | nil => rfl
  | cons n ms ih =>
    have hvn := hval n (List.mem_cons_self n ms)
    have hne : (!n.data.isEmpty) = true := by
      cases hd : n.data with
      | nil => exact absurd hd hvn.1
      | cons a l => rfl
    cases ms with
    | nil =>
      rw [show interData [n] = n.data from rfl, sepSplitAux_no_sep n.data [] hvn.2]
      simp only [List.reverse_nil, List.nil_append, List.filter, hne]
      rfl
    | cons m ms2 =>
      rw [show interData (n :: m :: ms2) = n.data ++ '/' :: interData (m :: ms2) from rfl,
        sepSplitAux_sep n.data (interData (m :: ms2)) [] hvn.2]
      simp only [List.reverse_nil, List.nil_append, List.filter, hne]
      rw [ih (fun x hx => hval x (List.mem_cons_of_mem n hx))]
      rfl

/-- `get_ancestry` only appends to its accumulator. -/
theorem get_ancestry_acc (anc : List PFrame) :
    ∀ (f : PFrame) (acc : List (PFrame × List PFrame)),
      get_ancestry f anc acc = acc ++ ancToList f anc := by
  induction anc with
  | nil => intro f acc; rfl
  | cons p rest ih =>
    intro f acc
    simp only [get_ancestry, ancToList]
    rw [ih p acc]
    simp [List.append_assoc]

theorem inits_snoc (ns : List String) :
    ∀ n : String, (ns ++ [n]).inits = ns.inits ++ [ns ++ [n]] := by
  induction ns with
  | nil => intro n; rfl
  | cons m ms ih =>
    intro n
    rw [List.cons_append, List.inits_cons, List.inits_cons, ih n]
    simp

/-- The ancestry of the node reached through `ns` is one node per prefix
of `ns`, root-first. -/
theorem ancToList_chain (ns : List String) :
    ancToList (chain ns).1 (chain ns).2 = ns.inits.map chain := by
  induction ns using List.reverseRecOn with
  | nil => rfl
  | append_singleton ns n ih =>
    rw [chain_snoc]
    simp only [ancToList]
    rw [ih, inits_snoc, List.map_append, ← chain_snoc]
    rfl

/-! ### Claims -/

/-- C3: parsing the flat keys `["logs/2023/a.txt", "logs/2023/b.txt",
"readme.md"]` under a bucket node produces exactly one leaf `readme.md`
and one container `logs` containing one container `2023` containing the
leaves `a.txt` and `b.txt`; the bucket, `logs` and `2023` nodes all come
out `fetched = true` from the single parse pass (the parser makes no
backend call at all), and `fetch_children` on each of them afterwards
performs zero backend calls whatever handle is supplied. -/
theorem c3_flat_key_parse_scenario :
    parse_objpaths (make_dir "bucket") ["logs/2023/a.txt", "logs/2023/b.txt", "readme.md"] none
      = some (mk (some "bucket") false
          (some [make_root, make_elm "readme.md",
            mk (some "logs") false
              (some [make_root,
                mk (some "2023") false
                  (some [make_root, make_elm "a.txt", make_elm "b.txt"]) true false])
              true false])
          true false)
  ∧ (∀ (hdl : CloudHandle) (anc : List PFrame) (f : Option (String → Bool)),
      fetch_children anc
          (mk (some "bucket") false
            (some [make_root, make_elm "readme.md",
              mk (some "logs") false
                (some [make_root,
                  mk (some "2023") false
                    (some [make_root, make_elm "a.txt", make_elm "b.txt"]) true false])
                true false])
            true false) (some hdl) f
        = some (mk (some "bucket") false
            (some [make_root, make_elm "readme.md",
              mk (some "logs") false
                (some [make_root,
                  mk (some "2023") false
                    (some [make_root, make_elm "a.txt", make_elm "b.txt"]) true false])
                true false])
            true false,
          some [make_root, make_elm "readme.md",
            mk (some "logs") false
              (some [make_root,
                mk (some "2023") false
                  (some [make_root, make_elm "a.txt", make_elm "b.txt"]) true false])
              true false], 0))
  ∧ (∀ (hdl : CloudHandle) (anc : List PFrame) (f : Option (String → Bool)),
      fetch_children anc
          (mk (some "logs") false
            (some [make_root,
              mk (some "2023") false
                (some [make_root, make_elm "a.txt", make_elm "b.txt"]) true false])
            true false) (some hdl) f
        = some (mk (some "logs") false
            (some [make_root,
              mk (some "2023") false
                (some [make_root, make_elm "a.txt", make_elm "b.txt"]) true false])
            true false,
          some [make_root,
            mk (some "2023") false
              (some [make_root, make_elm "a.txt", make_elm "b.txt"]) true false], 0))
  ∧ (∀ (hdl : CloudHandle) (anc : List PFrame) (f : Option (String → Bool)),
      fetch_children anc
          (mk (some "2023") false (some [make_root, make_elm "a.txt", make_elm "b.txt"])
            true false) (some hdl) f
        = some (mk (some "2023") false (some [make_root, make_elm "a.txt", make_elm "b.txt"])
            true false,
          some [make_root, make_elm "a.txt", make_elm "b.txt"], 0)) :=
  ⟨rfl, fun _ _ _ => rfl, fun _ _ _ => rfl, fun _ _ _ => rfl⟩

/-- C10: in `parse_objpaths`, an empty-string key contributes no child at
all, and a key `"a/"` (separator at the end, nothing after it) produces a
container named `a` — `fetched = true`, no children besides its dirup
marker — never a leaf. -/
theorem c10_trailing_separator_and_empty_key :
    parse_objpaths (make_dir "x") [""] none
      = some (mk (some "x") false (some [make_root]) true false)
  ∧ parse_objpaths (make_dir "x") ["", "a/"] none
      = some (mk (some "x") false
          (some [make_root, mk (some "a") false (some [make_root]) true false]) true false)
  ∧ is_leaf (mk (some "a") false (some [make_root]) true false) = false
  ∧ is_dir [PFrame.mk (some "x") false] (mk (some "a") false (some [make_root]) true false)
      = true :=
  ⟨rfl, rfl, rfl, rfl⟩

/-- C1 (counterexample): handing `_parse_children` an empty list for a
directory node (`buckets=False`) does NOT mark it fetched: the
`elif children:` guard is falsy for `[]`, every branch is skipped, and
the node comes back with `fetched = false` — not `fetched = true` as the
claim states. -/
theorem c1_empty_list_dir_counterexample :
    (parse_children (make_dir "d") (some []) none false).map TNode.fetched = some false
  ∧ (parse_children (make_dir "d") (some []) none false).map TNode.fetched ≠ some true :=
  ⟨rfl, by decide⟩

/-- C1 (amended): an empty list marks a master-root (`buckets=True`) parse
`fetched = true` with zero children; a directory (`buckets=False`) parse
of an empty list leaves the node completely unchanged (so `fetched` stays
`false` for an unfetched directory); the `none` sentinel resets `fetched`
to `false` in both modes with children untouched; and a backend listing
call that returns `none` records a non-empty error string. -/
theorem c1_empty_vs_error_amended (t : TNode) (f : Option (String → Bool)) (b : Bool)
    (pn : String) (call : CallRes (Option (List String))) :
    parse_children t (some []) f true = some (mk t.name t.root (some []) true false)
  ∧ parse_children t (some []) f false = some t
  ∧ parse_children t none f b = some (mk t.name t.root t.children false false)
  ∧ ((az_get_buckets pn call).2 = none →
      ∃ e, (az_get_buckets pn call).1 = some e ∧ e ≠ "") := by
  refine ⟨rfl, rfl, rfl, fun hnone => ?_⟩
  match call with
  | .raised m =>
    exact ⟨"Failed Azure list_containers: " ++ m, rfl,
      string_append_ne_empty _ _ (by decide)⟩
  | .ok none =>
    exact ⟨"Failed to parse response to list_containers for: " ++ pn.take 20, rfl,
      string_append_ne_empty _ _ (by decide)⟩
  | .ok (some names) => simp [az_get_buckets] at hnone

/-- C1 (amended, witness). -/
theorem c1_empty_vs_error_amended_witness :
    ∃ e, (az_get_buckets "n" (CallRes.raised "boom")).1 = some e ∧ e ≠ "" :=
  (c1_empty_vs_error_amended (make_dir "d") none false "n" (CallRes.raised "boom")).2.2.2 rfl

/-- C2 (code bug): on the no-op paths — node already fetched, or no
backend handle — `S3Obj.fetch_children` still reaches
`return self.parse_children(children)` with the local `children` never
assigned, so it raises `UnboundLocalError` (modelled `none`) instead of
returning the current children unchanged; `CloudObj.fetch_children`, the
reworked revision of the same method, implements the claimed no-op:
state unchanged, current children returned, zero backend calls. -/
theorem c2_fetch_noop_s3_crash :
    s3_fetch_children [] (mk (some "d") false (some [make_root]) true false) none = none
  ∧ s3_fetch_children [] (mk (some "d") false (some [make_root]) true false)
      (some ⟨none, fun _ _ => none⟩) = none
  ∧ s3_fetch_children [] (mk (some "d") false (some [make_root]) false false) none = none
  ∧ fetch_children [] (mk (some "d") false (some [make_root]) true false) none none
      = some (mk (some "d") false (some [make_root]) true false, some [make_root], 0)
  ∧ fetch_children [] (mk (some "d") false (some [make_root]) true false)
        (some ⟨none, fun _ _ => none⟩) none
      = some (mk (some "d") false (some [make_root]) true false, some [make_root], 0)
  ∧ fetch_children [] (mk (some "d") false (some [make_root]) false false) none none
      = some (mk (some "d") false (some [make_root]) false false, some [make_root], 0) :=
  ⟨rfl, rfl, rfl, rfl, rfl, rfl⟩

/-- C6: `find`/`_add` de-duplicate by name equality — adding a candidate
whose name matches an existing child returns that existing child and
leaves the parent untouched; consequently parsing `["a/b", "a/c"]`
produces exactly one container `a` with the two leaves `b` and `c`, both
in the grouping parser of `CloudObj.parse_objpaths` and in the
`add`-based `S3Obj.make_obj` path. -/
theorem c6_name_dedup :
    (∀ (t c orig : TNode), find t c = some orig → add t c = (t, orig))
  ∧ parse_objpaths (make_dir "x") ["a/b", "a/c"] none
      = some (mk (some "x") false
          (some [make_root,
            mk (some "a") false (some [make_root, make_elm "b", make_elm "c"]) true false])
          true false)
  ∧ s3_parse_children [PFrame.mk none true]
        (mk (some "x") false (some [make_root]) false false) (some ["a/b", "a/c"])
      = some (mk (some "x") false
          (some [make_root,
            mk (some "a") false (some [make_root, make_elm "b", make_elm "c"]) false false])
          true false,
        some [make_root,
          mk (some "a") false (some [make_root, make_elm "b", make_elm "c"]) false false]) := by
  refine ⟨fun t c orig h => ?_, rfl, rfl⟩
  unfold add
  rw [h]

/-- C6 (witness): adding a second child named `a` to a parent that
already has one returns the existing child and changes nothing. -/
theorem c6_name_dedup_witness :
    add (mk (some "x") false (some [make_root, make_dir "a"]) false false) (make_elm "a")
      = (mk (some "x") false (some [make_root, make_dir "a"]) false false, make_dir "a") :=
  (c6_name_dedup).1 (mk (some "x") false (some [make_root, make_dir "a"]) false false)
    (make_elm "a") (make_dir "a") rfl

/-- C4: `__lt__` orders any two nodes master-root first, then dirup, then
bucket, then nodes with a children sequence before leaves, with
case-sensitive (code-point) name comparison inside each named class; as a
consequence, sorting a children list such as `[leaf z, dir d, dirup]`
yields `[dirup, dir d, leaf z]`. -/
theorem c4_lt_ordering (a1 : List PFrame) (t1 : TNode) (a2 : List PFrame) (t2 : TNode) :
    (is_master_root a1 t1 = true → is_master_root a2 t2 = false →
      ltb a1 t1 a2 t2 = true ∧ ltb a2 t2 a1 t1 = false)
  ∧ (is_master_root a1 t1 = false → is_master_root a2 t2 = false →
      is_dirup a1 t1 = true → is_dirup a2 t2 = false →
      ltb a1 t1 a2 t2 = true ∧ ltb a2 t2 a1 t1 = false)
  ∧ (is_master_root a1 t1 = false → is_master_root a2 t2 = false →
      is_dirup a1 t1 = false → is_dirup a2 t2 = false →
      is_bucket a1 = true → is_bucket a2 = false →
      ltb a1 t1 a2 t2 = true ∧ ltb a2 t2 a1 t1 = false)
  ∧ (is_master_root a1 t1 = false → is_master_root a2 t2 = false →
      is_dirup a1 t1 = false → is_dirup a2 t2 = false →
      is_bucket a1 = false → is_bucket a2 = false →
      has_children t1 = true → has_children t2 = false →
      ltb a1 t1 a2 t2 = true ∧ ltb a2 t2 a1 t1 = false)
  ∧ (∀ n1 n2, t1.name = some n1 → t2.name = some n2 →
      is_master_root a1 t1 = false → is_master_root a2 t2 = false →
      is_dirup a1 t1 = false → is_dirup a2 t2 = false →
      ((is_bucket a1 = true ∧ is_bucket a2 = true) ∨
        (is_bucket a1 = false ∧ is_bucket a2 = false ∧ has_children t1 = has_children t2)) →
      ltb a1 t1 a2 t2 = charsLt n1.data n2.data)
  ∧ sortChildren [PFrame.mk (some "b") false, PFrame.mk none true]
        (mk (some "p") false (some []) true false)
        [make_elm "z", mk (some "d") false (some [make_root]) false false, make_root]
      = [make_root, mk (some "d") false (some [make_root]) false false, make_elm "z"] := by
  refine ⟨fun h1 h2 => ⟨?_, ?_⟩, fun h1 h2 h3 h4 => ⟨?_, ?_⟩,
    fun h1 h2 h3 h4 h5 h6 => ⟨?_, ?_⟩, fun h1 h2 h3 h4 h5 h6 h7 h8 => ⟨?_, ?_⟩,
    fun n1 n2 hn1 hn2 h1 h2 h3 h4 hcl => ?_, rfl⟩
  · simp [ltb, h1, h2]
  · simp [ltb, h1, h2]
  · simp [ltb, h1, h2, h3, h4]
  · simp [ltb, h1, h2, h3, h4]
  · simp [ltb, h1, h2, h3, h4, h5, h6]
  · simp [ltb, h1, h2, h3, h4, h5, h6]
  · simp [ltb, h1, h2, h3, h4, h5, h6, h7, h8]
  · simp [ltb, h1, h2, h3, h4, h5, h6, h7, h8]
  · rcases hcl with ⟨hb1, hb2⟩ | ⟨hb1, hb2, hch⟩
    · simp [ltb, h1, h2, h3, h4, hb1, hb2, nameLt, hn1, hn2]
    · cases hv : has_children t1
      · rw [hv] at hch
        simp [ltb, h1, h2, h3, h4, hb1, hb2, hv, ← hch, nameLt, hn1, hn2]
      · rw [hv] at hch
        simp [ltb, h1, h2, h3, h4, hb1, hb2, hv, ← hch, nameLt, hn1, hn2]

/-- C4 (witness): each ordering rule applied at concrete nodes. -/
theorem c4_lt_ordering_witness :
    (ltb [] make_root [] (make_elm "x") = true
      ∧ ltb [] (make_elm "x") [] make_root = false)
  ∧ (ltb [PFrame.mk (some "b") false] make_root [PFrame.mk (some "b") false] (make_elm "x") = true
      ∧ ltb [PFrame.mk (some "b") false] (make_elm "x") [PFrame.mk (some "b") false] make_root = false)
  ∧ (ltb [PFrame.mk none true] (make_dir "b")
        [PFrame.mk (some "q") false, PFrame.mk none true] (make_elm "x") = true
      ∧ ltb [PFrame.mk (some "q") false, PFrame.mk none true] (make_elm "x")
        [PFrame.mk none true] (make_dir "b") = false)
  ∧ (ltb [PFrame.mk (some "q") false, PFrame.mk none true] (make_dir "d")
        [PFrame.mk (some "q") false, PFrame.mk none true] (make_elm "x") = true
      ∧ ltb [PFrame.mk (some "q") false, PFrame.mk none true] (make_elm "x")
        [PFrame.mk (some "q") false, PFrame.mk none true] (make_dir "d") = false)
  ∧ ltb [PFrame.mk (some "q") false, PFrame.mk none true] (make_elm "a")
      [PFrame.mk (some "q") false, PFrame.mk none true] (make_elm "b")
      = charsLt "a".data "b".data :=
  ⟨(c4_lt_ordering [] make_root [] (make_elm "x")).1 rfl rfl,
   (c4_lt_ordering [PFrame.mk (some "b") false] make_root
      [PFrame.mk (some "b") false] (make_elm "x")).2.1 rfl rfl rfl rfl,
   (c4_lt_ordering [PFrame.mk none true] (make_dir "b")
      [PFrame.mk (some "q") false, PFrame.mk none true] (make_elm "x")).2.2.1
      rfl rfl rfl rfl rfl rfl,
   (c4_lt_ordering [PFrame.mk (some "q") false, PFrame.mk none true] (make_dir "d")
      [PFrame.mk (some "q") false, PFrame.mk none true] (make_elm "x")).2.2.2.1
      rfl rfl rfl rfl rfl rfl rfl rfl,
   (c4_lt_ordering [PFrame.mk (some "q") false, PFrame.mk none true] (make_elm "a")
      [PFrame.mk (some "q") false, PFrame.mk none true] (make_elm "b")).2.2.2.2.1
      "a" "b" rfl rfl rfl rfl rfl rfl (Or.inr ⟨rfl, rfl, rfl⟩)⟩

/-- C7 (counterexample): the S3 adapter catches only
`(ClientError, EndpointConnectionError)`, so a transport/auth failure of
any other class — e.g. `HTTPClientError` (read timeout) or
`NoCredentialsError` — propagates past the adapter (`none`: the method
never returns, no sentinel, no recorded error), refuting "on any
transport/auth failure the call returns the sentinel none ... and no
exception escapes the adapter"; a failure of a caught class does behave
as claimed. -/
theorem c7_uncaught_exception_escapes_counterexample :
    s3_get_buckets "p" (S3CallRes.raisedUncaught "HTTPClientError: read timeout") = none
  ∧ s3_get_objects "p" (S3CallRes.raisedUncaught "NoCredentialsError") = none
  ∧ s3_get_buckets "p" (S3CallRes.raisedCaught "connection error")
      = some (some "Failed AWS list_backets: connection error", none) :=
  ⟨rfl, rfl, by decide⟩

/-- C7 (amended): whenever an adapter listing call returns at all, the
sentinel contract holds — `none` result iff a non-empty error string is
stored, success stores no error, and the empty list is a legitimate
success distinct from `none`; a failure of one of the exception classes
the adapter catches (`ClientError`/`EndpointConnectionError` for S3,
`AzureError`/`HttpResponseError` for Azure, which cover the Azure SDK
failures) always returns that way; but an S3 failure of any other
exception class propagates uncaught past the adapter. -/
theorem c7_adapter_failure_contract_amended (pn container pfx : String)
    (callSB : S3CallRes (Option (List String))) (callSO : S3CallRes S3ObjectsResp)
    (callAB callAO : CallRes (Option (List String))) :
    (∀ err res, s3_get_buckets pn callSB = some (err, res) →
      (res = none → ∃ e, err = some e ∧ e ≠ "") ∧ (∀ l, res = some l → err = none))
  ∧ (∀ m, ∃ e, s3_get_buckets pn (S3CallRes.raisedCaught m) = some (some e, none) ∧ e ≠ "")
  ∧ (∀ m, s3_get_buckets pn (S3CallRes.raisedUncaught m) = none)
  ∧ (∀ err res, s3_get_objects pn callSO = some (err, res) →
      (res = none → ∃ e, err = some e ∧ e ≠ "") ∧ (∀ l, res = some l → err = none))
  ∧ (∀ m, ∃ e, s3_get_objects pn (S3CallRes.raisedCaught m) = some (some e, none) ∧ e ≠ "")
  ∧ (∀ m, s3_get_objects pn (S3CallRes.raisedUncaught m) = none)
  ∧ ((az_get_buckets pn callAB).2 = none →
      ∃ e, (az_get_buckets pn callAB).1 = some e ∧ e ≠ "")
  ∧ (∀ l, (az_get_buckets pn callAB).2 = some l → (az_get_buckets pn callAB).1 = none)
  ∧ ((az_get_objects container pfx callAO).2 = none →
      ∃ e, (az_get_objects container pfx callAO).1 = some e ∧ e ≠ "")
  ∧ (∀ l, (az_get_objects container pfx callAO).2 = some l →
      (az_get_objects container pfx callAO).1 = none)
  ∧ s3_get_buckets pn (S3CallRes.ok (some [])) = some (none, some [])
  ∧ (az_get_buckets pn (CallRes.ok (some []))).2 = some []
  ∧ (az_get_buckets pn (CallRes.ok (some []))).1 = none := by
  refine ⟨?_, ?_, fun m => rfl, ?_, ?_, fun m => rfl, ?_, ?_, ?_, ?_, rfl, rfl, rfl⟩
  · cases callSB with
    | raisedUncaught m => intro err res h; exact absurd h (by simp [s3_get_buckets])
    | raisedCaught m =>
      intro err res h
      simp only [s3_get_buckets, Option.some.injEq, Prod.mk.injEq] at h
      obtain ⟨herr, hres⟩ := h
      subst herr hres
      exact ⟨fun _ => ⟨_, rfl, string_append_ne_empty _ _ (by decide)⟩,
        fun l hl => absurd hl (by simp)⟩
    | ok r =>
      cases r with
      | none =>
        intro err res h
        simp only [s3_get_buckets, Option.some.injEq, Prod.mk.injEq] at h
        obtain ⟨herr, hres⟩ := h
        subst herr hres
        exact ⟨fun _ => ⟨_, rfl, string_append_ne_empty _ _ (by decide)⟩,
          fun l hl => absurd hl (by simp)⟩
      | some names =>
        intro err res h
        simp only [s3_get_buckets, Option.some.injEq, Prod.mk.injEq] at h
        obtain ⟨herr, hres⟩ := h
        subst herr hres
        exact ⟨fun hr => absurd hr (by simp), fun l _ => rfl⟩
  · intro m
    exact ⟨_, rfl, string_append_ne_empty _ _ (by decide)⟩
  · cases callSO with
    | raisedUncaught m => intro err res h; exact absurd h (by simp [s3_get_objects])
    | raisedCaught m =>
      intro err res h
      simp only [s3_get_objects, Option.some.injEq, Prod.mk.injEq] at h
      obtain ⟨herr, hres⟩ := h
      subst herr hres
      exact ⟨fun _ => ⟨_, rfl, string_append_ne_empty _ _ (by decide)⟩,
        fun l hl => absurd hl (by simp)⟩
    | ok r =>
      intro err res h
      cases hq : s3res_get_objects_names r with
      | none =>
        rw [show s3_get_objects pn (S3CallRes.ok r)
            = some (some ("Failed to parse response to list_objects_v2 for: "
              ++ pn.take 20), none) from by simp [s3_get_objects, hq]] at h
        simp only [Option.some.injEq, Prod.mk.injEq] at h
        obtain ⟨herr, hres⟩ := h
        subst herr hres
        exact ⟨fun _ => ⟨_, rfl, string_append_ne_empty _ _ (by decide)⟩,
          fun l hl => absurd hl (by simp)⟩
      | some names =>
        rw [show s3_get_objects pn (S3CallRes.ok r) = some (none, some names) from by
          simp [s3_get_objects, hq]] at h
        simp only [Option.some.injEq, Prod.mk.injEq] at h
        obtain ⟨herr, hres⟩ := h
        subst herr hres
        exact ⟨fun hr => absurd hr (by simp), fun l _ => rfl⟩
  · intro m
    exact ⟨_, rfl, string_append_ne_empty _ _ (by decide)⟩
  · match callAB with
    | .raised m => exact fun _ => ⟨_, rfl, string_append_ne_empty _ _ (by decide)⟩
    | .ok none => exact fun _ => ⟨_, rfl, string_append_ne_empty _ _ (by decide)⟩
    | .ok (some names) => intro h; exact absurd h (by simp [az_get_buckets])
  · match callAB with
    | .raised m => intro l h; exact absurd h (by simp [az_get_buckets])
    | .ok none => intro l h; exact absurd h (by simp [az_get_buckets])
    | .ok (some names) => intro l _; rfl
  · match callAO with
    | .raised m => exact fun _ => ⟨_, rfl, string_append_ne_empty _ _ (by decide)⟩
    | .ok none =>
      exact fun _ => ⟨_, rfl, string_append_ne_empty _ _ (string_append_pos _ _
        (string_append_pos _ _ (string_append_pos _ _ (by decide))))⟩
    | .ok (some names) => intro h; exact absurd h (by simp [az_get_objects])
  · match callAO with
    | .raised m => intro l h; exact absurd h (by simp [az_get_objects])
    | .ok none => intro l h; exact absurd h (by simp [az_get_objects])
    | .ok (some names) => intro l _; rfl

/-- C7 (amended, witness): a caught S3 failure returns the sentinel with
a non-empty error; an uncaught-class S3 failure escapes; a malformed S3
response stores a non-empty error; an Azure failure stores a non-empty
error; an Azure success stores no error. -/
theorem c7_adapter_failure_contract_amended_witness :
    (∃ e, s3_get_buckets "p" (S3CallRes.raisedCaught "conn refused")
        = some (some e, none) ∧ e ≠ "")
  ∧ s3_get_buckets "p" (S3CallRes.raisedUncaught "HTTPClientError") = none
  ∧ (∃ e, (some ("Failed to parse response to list_buckets for: " ++ "p".take 20)
        : Option String) = some e ∧ e ≠ "")
  ∧ (∃ e, (az_get_buckets "p" (CallRes.raised "boom")).1 = some e ∧ e ≠ "")
  ∧ (az_get_buckets "p" (CallRes.ok (some ["c1"]))).1 = none :=
  ⟨(c7_adapter_failure_contract_amended "p" "c" "q" (S3CallRes.ok none)
      (S3CallRes.ok ⟨some 0, none⟩) (CallRes.ok none) (CallRes.ok none)).2.1 "conn refused",
   (c7_adapter_failure_contract_amended "p" "c" "q" (S3CallRes.ok none)
      (S3CallRes.ok ⟨some 0, none⟩) (CallRes.ok none) (CallRes.ok none)).2.2.1 "HTTPClientError",
   ((c7_adapter_failure_contract_amended "p" "c" "q" (S3CallRes.ok none)
      (S3CallRes.ok ⟨some 0, none⟩) (CallRes.ok none) (CallRes.ok none)).1
      (some ("Failed to parse response to list_buckets for: " ++ "p".take 20)) none rfl).1 rfl,
   (c7_adapter_failure_contract_amended "p" "c" "q" (S3CallRes.ok none)
      (S3CallRes.ok ⟨some 0, none⟩) (CallRes.raised "boom")
      (CallRes.ok none)).2.2.2.2.2.2.1 rfl,
   (c7_adapter_failure_contract_amended "p" "c" "q" (S3CallRes.ok none)
      (S3CallRes.ok ⟨some 0, none⟩) (CallRes.ok (some ["c1"]))
      (CallRes.ok none)).2.2.2.2.2.2.2.1 ["c1"] rfl⟩

/-- C9: `get_dir_list` without a backend handle never raises: a leaf node
(children `None`) yields the empty display list, and an unfetched
container yields exactly one display tuple per child already present,
with the node (in particular its `fetched = false` flag) unchanged. -/
theorem c9_get_dir_list_without_handle (anc : List PFrame) (t : TNode)
    (bI dI fI : Option String) (f : Option (String → Bool)) :
    (t.children = none → get_dir_list anc t none bI dI fI f = some (t, []))
  ∧ (∀ cs, t.children = some cs → t.fetched = false →
      get_dir_list anc t none bI dI fI f
        = some (t, cs.map fun c => get_dir_tuple (PFrame.mk t.name t.root :: anc) c
            (resolveIcon bI DEF_BUCKET_ICON) (resolveIcon dI DEF_DIR_ICON)
            (resolveIcon fI DEF_FILE_ICOM))) := by
  constructor
  · intro hc
    cases ht : t.fetched <;>
      simp [get_dir_list, fetch_children, prep_children, hc, ht]
  · intro cs hc hf
    simp [get_dir_list, fetch_children, prep_children, hc, hf]

/-- C9 (witness): a freshly created container without a handle lists just
its dirup marker and stays unfetched; a leaf yields `[]`. -/
theorem c9_get_dir_list_without_handle_witness :
    get_dir_list [] (make_dir "d") none none none none none
      = some (make_dir "d", [make_root].map fun c =>
          get_dir_tuple [PFrame.mk (some "d") false] c
            (resolveIcon none DEF_BUCKET_ICON) (resolveIcon none DEF_DIR_ICON)
            (resolveIcon none DEF_FILE_ICOM))
  ∧ get_dir_list [] (make_elm "z") none none none none none = some (make_elm "z", []) :=
  ⟨(c9_get_dir_list_without_handle [] (make_dir "d") none none none none).2
      [make_root] rfl rfl,
   (c9_get_dir_list_without_handle [] (make_elm "z") none none none none).1 rfl⟩

/-- C8: a container created by the directory constructor has exactly the
dirup marker (a root-flagged node, a dirup in the context of its parent)
as its one and only first child; and no operation inserts a second dirup
into a children sequence: parsing appends only non-root nodes (so the
root-marker count of every children list it touches is unchanged),
`_add` keeps the count for non-root candidates and is a no-op for a dirup
candidate when a `None`-named child is already present (name-equality
de-duplication), and sorting permutes, preserving the count. -/
theorem c8_dirup_marker_invariant :
    (∀ n, (make_dir n).children = some [make_root]
      ∧ make_root.root = true
      ∧ is_dirup [PFrame.mk (some n) false] make_root = true)
  ∧ (∀ (f : Option (String → Bool)) (b : Nat) (t : TNode) (ps : List String) (t' : TNode),
      parseB f b t ps = some t' →
      countRoot (t'.children.getD []) = countRoot (t.children.getD []))
  ∧ (∀ (t c : TNode), c.root = false →
      countRoot ((add t c).1.children.getD []) = countRoot (t.children.getD []))
  ∧ (∀ (t : TNode) (cs : List TNode) (d : TNode), t.children = some cs → d ∈ cs →
      d.name = none → (add t make_root).1 = t)
  ∧ (∀ (anc : List PFrame) (t : TNode) (cs : List TNode),
      countRoot (sortChildren anc t cs) = countRoot cs) := by
  refine ⟨fun n => ⟨rfl, rfl, rfl⟩, ?_, ?_, ?_, ?_⟩
  · intro f b t ps t' h
    obtain ⟨cs, cs', hc, hc', hroot⟩ := parseB_appends_nonroot f b t ps t' h
    have hz : cs'.countP (fun x => x.root) = 0 :=
      List.countP_eq_zero.mpr fun a ha => by simp [hroot a ha]
    rw [hc, hc']
    simp [countRoot, List.countP_append, hz]
  · intro t c hc
    unfold add
    cases hf : find t c with
    | some orig => rfl
    | none => simp [countRoot, List.countP_append, List.countP_cons, hc]
  · intro t cs d hc hd hdname
    have hfind : ∃ orig, find t make_root = some orig := by
      unfold find
      rw [hc]
      cases hsome : cs.find? (fun x => x.name == (make_root).name) with
      | none =>
        exfalso
        have := List.find?_eq_none.mp hsome d hd
        simp [hdname, make_root] at this
      | some o => exact ⟨o, hsome⟩
    obtain ⟨orig, horig⟩ := hfind
    unfold add
    rw [horig]
  · intro anc t cs
    unfold sortChildren countRoot
    exact (pySort_perm _ cs).countP_eq _

/-- C8 (witness): concrete applications — a parse pass, a non-root add
and a duplicate-dirup add all leave the dirup count of the touched
children sequence unchanged. -/
theorem c8_dirup_marker_invariant_witness :
    countRoot (((mk (some "x") false
        (some [make_root, make_elm "c",
          mk (some "a") false (some [make_root, make_elm "b"]) true false])
        true false) : TNode).children.getD [])
      = countRoot (((make_dir "x") : TNode).children.getD [])
  ∧ countRoot ((add (make_dir "x") (make_elm "y")).1.children.getD [])
      = countRoot (((make_dir "x") : TNode).children.getD [])
  ∧ (add (make_dir "x") make_root).1 = make_dir "x" :=
  ⟨c8_dirup_marker_invariant.2.1 none 7 (make_dir "x") ["a/b", "c"]
      (mk (some "x") false
        (some [make_root, make_elm "c",
          mk (some "a") false (some [make_root, make_elm "b"]) true false])
        true false) rfl,
   c8_dirup_marker_invariant.2.2.1 (make_dir "x") (make_elm "y") rfl,
   c8_dirup_marker_invariant.2.2.2.1 (make_dir "x") [make_root] make_root rfl
      (List.mem_singleton.mpr rfl) rfl⟩

/-- C5: for a node reached from the master root through names
`[n1, ..., nk]` (`n1` directly under the master root, i.e. the bucket),
`get_cloud_path_with_bucket` yields a string that begins with the
separator and whose separator-split segments are exactly
`[n1, ..., nk]` — so dropping the bucket segment leaves `[n2, ..., nk]` —
and `get_ancestry([])` lists the master root followed by the node of each
longer prefix, in root-first order. -/
theorem c5_path_roundtrip (ns : List String) (hne : ns ≠ [])
    (hval : ∀ n ∈ ns, n.data ≠ [] ∧ '/' ∉ n.data) :
    ∃ s, get_cloud_path_with_bucket (chain ns).1 (chain ns).2 = some s
      ∧ s.data.head? = some '/'
      ∧ segsOf s = ns.map String.data
      ∧ (segsOf s).drop 1 = (ns.drop 1).map String.data
      ∧ get_ancestry (chain ns).1 (chain ns).2 [] = ns.inits.map chain := by
  obtain ⟨hdata, _⟩ := joinAll_props ns hval
  have hsegs : segsOf (pathJoinAll ns) = ns.map String.data := by
    unfold segsOf
    rw [hdata]
    rw [show sepSplitAux ('/' :: '/' :: interData ns) []
        = [] :: [] :: sepSplitAux (interData ns) [] from by simp [sepSplitAux]]
    rw [List.filter_cons_of_neg (by decide), List.filter_cons_of_neg (by decide)]
    exact segs_interData ns hval
  refine ⟨pathJoinAll ns, gcpwb_chain ns, by rw [hdata]; rfl, hsegs, ?_, ?_⟩
  · rw [hsegs, List.map_drop]
  · rw [get_ancestry_acc, List.nil_append, ancToList_chain]

/-- C5 (witness): the chain `["b", "x", "y"]`. -/
theorem c5_path_roundtrip_witness :
    ∃ s, get_cloud_path_with_bucket (chain ["b", "x", "y"]).1 (chain ["b", "x", "y"]).2 = some s
      ∧ s.data.head? = some '/'
      ∧ segsOf s = ["b", "x", "y"].map String.data
      ∧ (segsOf s).drop 1 = (["b", "x", "y"].drop 1).map String.data
      ∧ get_ancestry (chain ["b", "x", "y"]).1 (chain ["b", "x", "y"]).2 []
          = ["b", "x", "y"].inits.map chain :=
  c5_path_roundtrip ["b", "x", "y"] (by decide) (by decide)

end IpyFC
